import Mathlib

/-
  Verification development for the DrowsyNetwork TCP framework.

  Shallow embedding of the connection engine (src/Socket.cpp,
  include/drowsynetwork/Socket.hpp), the listener (src/Server.cpp,
  include/drowsynetwork/Server.hpp) and the framed example protocol
  (examples/raw/server_example.cpp).

  All handlers of one connection run serialized on its strand, so an
  execution of a connection is a sequence of handler activations; the
  trace semantics below folds those activations over the connection
  state.  Effects crossing the boundary of the component (arming an
  asynchronous operation, invoking an application hook, shutting the
  transport down) are logged explicitly.
-/

namespace DrowsyNetwork

/-- One outbound message payload, as the byte sequence exposed by
IPacketBase data()/size(). -/
abbrev Packet := List Nat

/-- Error codes of the asio error category that appear in the sources
(Socket.cpp IsFatalError and HandleDisconnect), together with common
transient codes, so that the classifier has a non-trivial domain. -/
inductive ErrorCode
  | eof
  | connectionReset
  | connectionAborted
  | networkDown
  | networkUnreachable
  | timedOut
  | brokenPipe
  | operationAborted
  | notConnected
  | wouldBlock
  | tryAgain
  | interrupted
  | inProgress
  | noBufferSpace
  | messageSize
  | accessDenied
  | addressInUse
  | hostUnreachable
deriving DecidableEq, Repr

/-- Socket.cpp IsFatalError: the exact disjunction of the eight codes
tested in the source. -/
def isFatalError (e : ErrorCode) : Bool :=
  e == .eof ||
  e == .connectionReset ||
  e == .connectionAborted ||
  e == .networkDown ||
  e == .networkUnreachable ||
  e == .timedOut ||
  e == .brokenPipe ||
  e == .operationAborted

/-- Observable effects of one handler activation: asynchronous
operations armed, application hooks invoked, transport shutdown.
armSizeRead and armBodyRead belong to the framed ExampleSocket. -/
inductive Effect
  | armWrite (p : Packet)
  | armRead
  | armSizeRead
  | armBodyRead (n : Nat)
  | onRead (bytes : List Nat) (len : Nat)
  | onDisconnect
  | shutdownClose
deriving DecidableEq, Repr

/-- State of one Socket: the fields of the class
(m_IsActive, m_IsWriting, m_WriteQueue, m_ReadBuffer, transport open
flag), the outstanding asynchronous operations (pendingW holds the
payloads of armed writes, pendingR counts armed reads), and the ghost
field transmitted listing the packets whose write completed without
error, i.e. the packets fully observed by the peer. -/
structure SocketState where
  isActive : Bool
  isWriting : Bool
  socketOpen : Bool
  writeQueue : List Packet
  readBuffer : List Nat
  pendingW : List Packet
  pendingR : Nat
  transmitted : List Packet
deriving DecidableEq, Repr

/-- State right after the constructor: connected transport, inactive,
idle writer, everything empty. -/
def init : SocketState :=
  { isActive := false, isWriting := false, socketOpen := true,
    writeQueue := [], readBuffer := [], pendingW := [],
    pendingR := 0, transmitted := [] }

/-- Socket.cpp HandleRead: arm one read of at least one byte. -/
def handleRead (s : SocketState) : SocketState × List Effect :=
  ({ s with pendingR := s.pendingR + 1 }, [Effect.armRead])

/-- Socket.cpp HandleWrite: bail out when inactive or when the queue is
empty, else arm an asynchronous write of the head of the queue. -/
def handleWrite (s : SocketState) : SocketState × List Effect :=
  if !s.isActive || s.writeQueue.isEmpty then (s, [])
  else
    match s.writeQueue with
    | [] => (s, [])
    | p :: _ => ({ s with pendingW := s.pendingW ++ [p] }, [Effect.armWrite p])

/-- Socket.cpp HandleDisconnect: when the transport is still open,
shut it down and close it (once); then clear the active flag, the
outbound queue and the writer flag, and invoke OnDisconnect.  Note the
hook invocation is unconditional. -/
def handleDisconnect (s : SocketState) : SocketState × List Effect :=
  let r0 := if s.socketOpen
            then ({ s with socketOpen := false }, [Effect.shutdownClose])
            else (s, [])
  ({ r0.1 with isActive := false, writeQueue := [], isWriting := false },
   r0.2 ++ [Effect.onDisconnect])

/-- Body of the lambda posted by Socket.cpp Setup: SetActive(true)
followed by HandleRead, with no guard of any kind. -/
def setupRun (s : SocketState) : SocketState × List Effect :=
  handleRead { s with isActive := true }

/-- Socket.hpp EnqueueSend: drop silently when inactive; otherwise
append the packet to the queue and, when the writer is idle, raise the
writer flag and start HandleWrite. -/
def enqueueSend (s : SocketState) (p : Packet) : SocketState × List Effect :=
  if !s.isActive then (s, [])
  else
    let s1 := { s with writeQueue := s.writeQueue ++ [p] }
    if !s1.isWriting then handleWrite { s1 with isWriting := true }
    else (s1, [])

/-- Socket.cpp FinishWrite: the completion retires one outstanding
write; when inactive, return; on any error, Disconnect (dispatch on the
own strand runs HandleDisconnect inline); on success, pop the head of
the queue into transmitted and either arm the next write or mark the
writer idle.  Popping an empty queue is undefined behaviour in the
source; it is modelled as a no-op and shown unreachable in the traces
the theorems quantify over. -/
def finishWrite (s : SocketState) (err : Option ErrorCode) :
    SocketState × List Effect :=
  let s0 := { s with pendingW := s.pendingW.tail }
  if !s0.isActive then (s0, [])
  else
    match err with
    | some _ => handleDisconnect s0
    | none =>
      match s0.writeQueue with
      | [] => (s0, [])
      | p :: rest =>
        let s1 := { s0 with writeQueue := rest,
                            transmitted := s0.transmitted ++ [p] }
        if rest.isEmpty then ({ s1 with isWriting := false }, [])
        else handleWrite s1

/-- Socket.cpp FinishRead: the completion retires one outstanding read
after the transferred bytes were committed to the stream buffer; when
inactive, return; on a fatal error, Disconnect; on a transient error,
re-arm the same read; on success, deliver the whole accumulated buffer
to OnRead once, consume exactly the transferred bytes, and arm the next
read. -/
def finishRead (s : SocketState) (err : Option ErrorCode)
    (bytes : List Nat) : SocketState × List Effect :=
  let s0 := { s with pendingR := s.pendingR - 1,
                     readBuffer := s.readBuffer ++ bytes }
  if !s0.isActive then (s0, [])
  else
    match err with
    | some e => if isFatalError e then handleDisconnect s0 else handleRead s0
    | none =>
      let buf := s0.readBuffer
      let s1 := { s0 with readBuffer := buf.drop bytes.length }
      let r := handleRead s1
      (r.1, Effect.onRead buf buf.length :: r.2)

/-- Result of Socket.hpp Send: either EnqueueSend ran directly (caller
already inside the strand) or the enqueue was posted into the strand to
run later. -/
inductive SendResult
  | direct (r : SocketState × List Effect)
  | posted (p : Packet)
deriving DecidableEq, Repr

/-- Socket.hpp Send: on the strand thread, EnqueueSend directly;
otherwise post the enqueue into the strand. -/
def send (s : SocketState) (inDomain : Bool) (p : Packet) : SendResult :=
  if inDomain then SendResult.direct (enqueueSend s p)
  else SendResult.posted p

/-- One handler activation on the strand of a connection. -/
inductive Op
  | setup
  | enqueue (p : Packet)
  | finishWrite (err : Option ErrorCode)
  | finishRead (err : Option ErrorCode) (bytes : List Nat)
  | disconnect
deriving DecidableEq, Repr

/-- Dispatch one activation to the function it runs. -/
def stepOp (s : SocketState) : Op → SocketState × List Effect
  | Op.setup => setupRun s
  | Op.enqueue p => enqueueSend s p
  | Op.finishWrite e => finishWrite s e
  | Op.finishRead e b => finishRead s e b
  | Op.disconnect => handleDisconnect s

/-- Fold a trace of activations, accumulating the effect log. -/
def run (s : SocketState) : List Op → SocketState × List Effect
  | [] => (s, [])
  | op :: t =>
    let r := stepOp s op
    let r2 := run r.1 t
    (r2.1, r.2 ++ r2.2)

/-- A trace is valid from a state when every completion handler it
contains corresponds to an operation actually outstanding: a write
completion needs an armed write, a read completion an armed read.
Posted activations (setup, enqueue, disconnect) are always possible. -/
def validFrom (s : SocketState) : List Op → Bool
  | [] => true
  | op :: t =>
    (match op with
     | Op.finishWrite _ => !s.pendingW.isEmpty
     | Op.finishRead _ _ => decide (0 < s.pendingR)
     | _ => true) && validFrom (stepOp s op).1 t

/-- True when the trace contains no setup activation. -/
def noSetup : List Op → Bool
  | [] => true
  | op :: t =>
    (match op with
     | Op.setup => false
     | _ => true) && noSetup t

/-- True when no activation of the trace triggers a disconnection:
no explicit disconnect, no write completion with an error, no read
completion with a fatal error. -/
def noDisconnect : List Op → Bool
  | [] => true
  | op :: t =>
    (match op with
     | Op.disconnect => false
     | Op.finishWrite (some _) => false
     | Op.finishRead (some e) _ => !isFatalError e
     | _ => true) && noDisconnect t

/-- The packets appended by the trace, in activation order. -/
def enqueuedOf : List Op → List Packet
  | [] => []
  | Op.enqueue p :: t => p :: enqueuedOf t
  | _ :: t => enqueuedOf t

/-- Head-match test on an armed-writes list and a queue: when exactly
one write is armed, its payload is the head of the queue. -/
def headMatchL (pw q : List Packet) : Bool :=
  match pw with
  | [p] => q.head? == some p
  | _ => true

/-- The armed write, when there is exactly one, is the head of the
write queue. -/
def headMatch (s : SocketState) : Bool :=
  headMatchL s.pendingW s.writeQueue

/-- Write-path invariant: at most one write in flight; on an active
connection an idle writer flag means no write in flight, and the armed
write is the head of the queue. -/
def winv (s : SocketState) : Bool :=
  decide (s.pendingW.length ≤ 1) &&
  (!s.isActive || s.isWriting || s.pendingW.isEmpty) &&
  (!s.isActive || headMatch s)

/-- The state right after the setup activation ran from the freshly
constructed state: active, one read armed. -/
def initActive : SocketState := (setupRun init).1

/-- Little-endian value of a byte list (each byte taken modulo 256). -/
def leValue : List Nat → Nat
  | [] => 0
  | b :: bs => b % 256 + 256 * leValue bs

/-- Reinterpret eight little-endian bytes as a signed 64-bit integer,
the way server_example.cpp reads a DrowsyNetwork SizeType (int64_t)
from the stream buffer. -/
def decodeInt64LE (bs : List Nat) : Int :=
  let u := leValue (bs.take 8)
  if u < 2 ^ 63 then (u : Int) else (u : Int) - 2 ^ 64

/-- Conversion of the signed SizeType to the unsigned size expected by
transfer_exactly, i.e. reduction modulo 2^64. -/
def sizeToNat (i : Int) : Nat := (i % ((2 : Int) ^ 64)).toNat

/-- server_example.cpp ExampleSocket HandleRead: arm a read of exactly
the width of the length header. -/
def exHandleRead (s : SocketState) : SocketState × List Effect :=
  ({ s with pendingR := s.pendingR + 1 }, [Effect.armSizeRead])

/-- server_example.cpp ExampleSocket FinishSizeRead: when inactive,
return; on a fatal error, Disconnect, on a transient one re-arm the
header read; with zero bytes transferred, re-arm the header read;
otherwise decode the signed 64-bit length from the front of the
buffer, consume the transferred bytes and arm a body read of exactly
that many bytes.  The source performs no validation of the decoded
length whatsoever. -/
def finishSizeRead (s : SocketState) (err : Option ErrorCode)
    (bytes : List Nat) : SocketState × List Effect :=
  let s0 := { s with pendingR := s.pendingR - 1,
                     readBuffer := s.readBuffer ++ bytes }
  if !s0.isActive then (s0, [])
  else
    match err with
    | some e => if isFatalError e then handleDisconnect s0 else exHandleRead s0
    | none =>
      if bytes.length = 0 then exHandleRead s0
      else
        let size := decodeInt64LE (s0.readBuffer.take 8)
        let s1 := { s0 with readBuffer := s0.readBuffer.drop bytes.length,
                            pendingR := s0.pendingR + 1 }
        (s1, [Effect.armBodyRead (sizeToNat size)])

/-- Observable effects of the listener (Server.cpp). -/
inductive SrvEffect
  | onAccept (idx : Nat)
  | armAccept (idx : Nat)
  | logAcceptError (idx : Nat)
  | logGetAcceptorError (idx : Nat)
deriving DecidableEq, Repr

/-- Server.cpp GetAcceptor: nullptr when the index is not smaller than
the acceptor count, otherwise the element at that index (the bounds
check makes the vector access safe). -/
def getAcceptor {α : Type} (acceptors : List α) (i : Nat) : Option α :=
  if h : acceptors.length ≤ i then none
  else some (acceptors.get ⟨i, Nat.lt_of_not_le h⟩)

/-- Server.cpp Listen: fetch the acceptor by index; when it is absent
log an error and arm nothing, else arm the next accept on it. -/
def listen {α : Type} (acceptors : List α) (i : Nat) : List SrvEffect :=
  match getAcceptor acceptors i with
  | none => [SrvEffect.logGetAcceptorError i]
  | some _ => [SrvEffect.armAccept i]

/-- Server.cpp Accept: on success invoke the OnAccept hook, on failure
log; in either case call Listen on the same index afterwards. -/
def accept {α : Type} (acceptors : List α) (i : Nat)
    (err : Option ErrorCode) : List SrvEffect :=
  (match err with
   | none => [SrvEffect.onAccept i]
   | some _ => [SrvEffect.logAcceptError i]) ++ listen acceptors i

/-- A generic active connection state with one read armed, used as a
concrete instantiation point. -/
def exampleActiveState : SocketState :=
  { isActive := true, isWriting := false, socketOpen := true,
    writeQueue := [], readBuffer := [], pendingW := [],
    pendingR := 1, transmitted := [] }

/-- An active connection with a write of packet [7] in flight and
packet [8] queued behind it. -/
def exampleWritingState : SocketState :=
  { isActive := true, isWriting := true, socketOpen := true,
    writeQueue := [[7], [8]], readBuffer := [], pendingW := [[7]],
    pendingR := 1, transmitted := [] }

/-- Concrete trace used to instantiate the write-order theorem: two
packets enqueued, both writes completed, one read completed. -/
def traceC1 : List Op :=
  [Op.enqueue [1, 2], Op.enqueue [3], Op.finishWrite none,
   Op.finishWrite none, Op.finishRead none [9]]

/-- Conclusion of the write-path claim: at most one write in flight,
the armed write is the head of the queue while the connection is
active, and in disconnect-free traces the transmitted packets followed
by the still-queued ones are exactly the enqueued ones in order. -/
def C1Concl (t : List Op) : Prop :=
  (run initActive t).1.pendingW.length ≤ 1 ∧
  ((run initActive t).1.isActive = true → headMatch (run initActive t).1 = true) ∧
  (noDisconnect t = true →
    (run initActive t).1.transmitted ++ (run initActive t).1.writeQueue
      = enqueuedOf t ∧
    ((run initActive t).1.writeQueue = [] →
      (run initActive t).1.transmitted = enqueuedOf t))

/-- Conclusion of the amended disconnect claim for n repeated
Disconnect activations: one shutdown-close sequence, n hook
invocations, and the state equal to the state after the first. -/
def C2Concl (n : Nat) : Prop :=
  (run init (List.replicate n Op.disconnect)).2.count Effect.shutdownClose = 1 ∧
  (run init (List.replicate n Op.disconnect)).2.count Effect.onDisconnect = n ∧
  (run init (List.replicate n Op.disconnect)).1 = (handleDisconnect init).1

/-- Conclusion of the amended setup claim: the setup activation always
sets the active flag and arms a read (it is never a no-op), and in a
trace with no setup activation an inactive connection stays inactive. -/
def C3Concl (s : SocketState) (t : List Op) : Prop :=
  (setupRun s).1.isActive = true ∧
  (setupRun s).2 = [Effect.armRead] ∧
  (run s t).1.isActive = false

/-- Conclusion of the amended write-completion claim, for an active
state whose queue is p followed by rest: an error disconnects with no
retry; success pops exactly p, arms the next write when rest is
non-empty and marks the writer idle otherwise. -/
def C4Concl (s : SocketState) (e : ErrorCode) (p : Packet)
    (rest : List Packet) : Prop :=
  ((finishWrite s (some e)).1.isActive = false ∧
   (finishWrite s (some e)).1.writeQueue = [] ∧
   (finishWrite s (some e)).2.count Effect.onDisconnect = 1 ∧
   (∀ q, Effect.armWrite q ∉ (finishWrite s (some e)).2)) ∧
  ((finishWrite s none).1.writeQueue = rest ∧
   (finishWrite s none).1.transmitted = s.transmitted ++ [p] ∧
   (rest = [] → (finishWrite s none).1.isWriting = false ∧
     (finishWrite s none).2 = []) ∧
   (∀ q rest2, rest = q :: rest2 →
     (finishWrite s none).2 = [Effect.armWrite q] ∧
     (finishWrite s none).1.isWriting = s.isWriting))

/-- Conclusion of the read-completion claim on an active state: fatal
errors disconnect, transient errors re-arm the same read, success
delivers the accumulated buffer once, consumes exactly the transferred
bytes and arms the next read. -/
def C5Concl (s : SocketState) (e : ErrorCode) (bytes : List Nat) : Prop :=
  (isFatalError e = true →
    (finishRead s (some e) bytes).1.isActive = false ∧
    Effect.armRead ∉ (finishRead s (some e) bytes).2 ∧
    (finishRead s (some e) bytes).2.count Effect.onDisconnect = 1) ∧
  (isFatalError e = false →
    (finishRead s (some e) bytes).2 = [Effect.armRead] ∧
    (finishRead s (some e) bytes).1.isActive = true ∧
    (finishRead s (some e) bytes).1.writeQueue = s.writeQueue) ∧
  ((finishRead s none bytes).2
      = [Effect.onRead (s.readBuffer ++ bytes) (s.readBuffer ++ bytes).length,
         Effect.armRead] ∧
   (finishRead s none bytes).1.readBuffer
      = (s.readBuffer ++ bytes).drop bytes.length ∧
   (finishRead s none bytes).1.isActive = true)

/-- Conclusion of the send claim: on an inactive connection the
enqueue is a complete no-op with no effects; inside the strand Send is
a direct EnqueueSend, outside it is a post whose later activation runs
EnqueueSend. -/
def C7Concl (s : SocketState) (p : Packet) : Prop :=
  enqueueSend s p = (s, []) ∧
  send s true p = SendResult.direct (enqueueSend s p) ∧
  send s false p = SendResult.posted p ∧
  stepOp s (Op.enqueue p) = enqueueSend s p

/-- Conclusion of the amended framed-header claim: every successfully
read header arms a body read of exactly the decoded length reduced
modulo 2^64, leaves the connection active and never disconnects. -/
def C8Concl (s : SocketState) (bytes : List Nat) : Prop :=
  (finishSizeRead s none bytes).2
    = [Effect.armBodyRead
        (sizeToNat (decodeInt64LE ((s.readBuffer ++ bytes).take 8)))] ∧
  (finishSizeRead s none bytes).1.isActive = true ∧
  Effect.onDisconnect ∉ (finishSizeRead s none bytes).2

/-- Conclusion of the amended accept-loop claim: for every completion
outcome on a valid index, some effects are produced and the last of
them is arming the next accept on the same endpoint. -/
def C9Concl {α : Type} (acceptors : List α) (i : Nat)
    (err : Option ErrorCode) : Prop :=
  accept acceptors i err ≠ [] ∧
  (accept acceptors i err).getLast? = some (SrvEffect.armAccept i)

/-
  Theorems.
-/

/-- Any activation other than setup leaves an inactive connection
inactive: nothing but SetActive(true) inside Setup raises the flag. -/
theorem stepOp_preserves_inactive (s : SocketState) (op : Op)
    (hop : op ≠ Op.setup) (h : s.isActive = false) :
    (stepOp s op).1.isActive = false := by
  cases op with
  | setup => exact absurd rfl hop
  | enqueue p => simp [stepOp, enqueueSend, h]
  | finishWrite e => simp [stepOp, finishWrite, h]
  | finishRead e b => simp [stepOp, finishRead, h]
  | disconnect => simp [stepOp, handleDisconnect]

/-- Running a setup-free trace from an inactive state never
re-activates the connection. -/
theorem run_noSetup_inactive (s : SocketState) (t : List Op)
    (hns : noSetup t = true) (h : s.isActive = false) :
    (run s t).1.isActive = false := by
  induction t generalizing s with
  | nil => exact h
  | cons op t ih =>
    have hop : op ≠ Op.setup := by
      cases op <;> simp_all [noSetup]
    have hns2 : noSetup t = true := by
      cases op <;> simp_all [noSetup]
    have : (run s (op :: t)).1 = (run (stepOp s op).1 t).1 := rfl
    rw [this]
    exact ih (stepOp s op).1 hns2 (stepOp_preserves_inactive s op hop h)

/-- C3 counterexample: setup, a completed disconnect, then a second
setup call leaves the connection active again and has armed a second
read, so Setup after disconnection is not a no-op. -/
theorem C3_counterexample :
    (run init [Op.setup, Op.disconnect, Op.setup]).1.isActive = true ∧
    (run init [Op.setup, Op.disconnect, Op.setup]).2.count Effect.armRead = 2 := by
  decide

/-- C3 (amended): Setup unconditionally activates the connection and
arms a read, so it is not idempotent; but Setup is the only activation
that raises the active flag, so in any execution without a (further)
setup call, once the flag is false it stays false. -/
theorem C3_amended_setup_reactivates (s : SocketState) (t : List Op)
    (h1 : s.isActive = false) (h2 : noSetup t = true) : C3Concl s t := by
  refine ⟨rfl, rfl, ?_⟩
  exact run_noSetup_inactive s t h2 h1

/-- C3 witness: the amended theorem applied to the constructed state
and a concrete setup-free trace. -/
theorem C3_witness : C3Concl init [Op.enqueue [1], Op.disconnect] :=
  C3_amended_setup_reactivates init [Op.enqueue [1], Op.disconnect] rfl (by decide)

/-- Disconnect activations after the first are stationary: the state
reached by the first HandleDisconnect is a fixed point that emits only
the OnDisconnect hook again. -/
theorem run_replicate_disconnect (m : Nat) :
    run (handleDisconnect init).1 (List.replicate m Op.disconnect)
      = ((handleDisconnect init).1, List.replicate m Effect.onDisconnect) := by
  induction m with
  | zero => rfl
  | succ k ih =>
    have hstep : stepOp (handleDisconnect init).1 Op.disconnect
        = ((handleDisconnect init).1, [Effect.onDisconnect]) := by rfl
    simp [List.replicate_succ, run, hstep, ih]

/-- C2 counterexample: two Disconnect activations fire the OnDisconnect
hook twice (HandleDisconnect has no already-disconnected guard), while
the shutdown-close sequence happens only once. -/
theorem C2_counterexample :
    (run init [Op.disconnect, Op.disconnect]).2.count Effect.onDisconnect = 2 ∧
    (run init [Op.disconnect, Op.disconnect]).2.count Effect.shutdownClose = 1 := by
  decide

/-- C2 (amended): n Disconnect activations produce exactly one
shutdown-then-close sequence (the transport is released only while
still open), invoke the OnDisconnect hook exactly n times, and every
activation after the first leaves the state unchanged. -/
theorem C2_amended_disconnect (n : Nat) (h : 1 ≤ n) : C2Concl n := by
  obtain ⟨m, rfl⟩ : ∃ m, n = m + 1 := ⟨n - 1, by omega⟩
  have hstep : stepOp init Op.disconnect
      = ((handleDisconnect init).1, [Effect.shutdownClose, Effect.onDisconnect]) := by rfl
  unfold C2Concl
  simp [List.replicate_succ, run, hstep, run_replicate_disconnect,
        List.count_cons, List.count_replicate]

/-- C2 witness: the amended theorem at n = 3. -/
theorem C2_witness : C2Concl 3 := C2_amended_disconnect 3 (by decide)

/-- C6: IsFatalError classifies as fatal exactly the eight codes
end-of-stream, connection reset, connection aborted, network down,
network unreachable, timed out, broken pipe and operation aborted, and
no other code. -/
theorem C6_fatal_classification (e : ErrorCode) :
    isFatalError e = true ↔
      (e = ErrorCode.eof ∨ e = ErrorCode.connectionReset ∨
       e = ErrorCode.connectionAborted ∨ e = ErrorCode.networkDown ∨
       e = ErrorCode.networkUnreachable ∨ e = ErrorCode.timedOut ∨
       e = ErrorCode.brokenPipe ∨ e = ErrorCode.operationAborted) := by
  cases e <;> decide

/-- C7: a Send on an inactive connection is silently dropped with the
whole state unchanged and nothing armed; inside the serialization
domain Send runs EnqueueSend directly, and from outside it posts the
enqueue into the domain, whose later activation is EnqueueSend. -/
theorem C7_send_inactive_dropped (s : SocketState) (p : Packet)
    (hI : s.isActive = false) : C7Concl s p := by
  refine ⟨?_, rfl, rfl, rfl⟩
  simp [enqueueSend, hI]

/-- C7 witness: the theorem on the freshly constructed (inactive)
connection. -/
theorem C7_witness : C7Concl init [5] :=
  C7_send_inactive_dropped init [5] rfl

/-- C8 counterexample: a received length header of 0 on an active
framed connection does not disconnect; it arms a body read of exactly
0 bytes and the connection stays active, contrary to the claimed
validation. -/
theorem C8_counterexample :
    (finishSizeRead exampleActiveState none [0, 0, 0, 0, 0, 0, 0, 0]).2
      = [Effect.armBodyRead 0] ∧
    (finishSizeRead exampleActiveState none [0, 0, 0, 0, 0, 0, 0, 0]).1.isActive
      = true ∧
    Effect.onDisconnect
      ∉ (finishSizeRead exampleActiveState none [0, 0, 0, 0, 0, 0, 0, 0]).2 := by
  decide

/-- C8 (amended): the framed example performs no validation of the
length header: every successfully read header, including 0, negative
values and values above 64 MiB, is consumed and followed by arming a
body read of exactly the decoded value reduced modulo 2^64; the
connection is never disconnected because of a header value. -/
theorem C8_no_header_validation (s : SocketState) (bytes : List Nat)
    (hA : s.isActive = true) (hB : bytes ≠ []) : C8Concl s bytes := by
  have hlen : ¬(bytes.length = 0) := by
    simpa [List.length_eq_zero] using hB
  unfold C8Concl finishSizeRead
  simp [hA, hlen]

/-- C8 witness: a header of eight 0xFF bytes decodes to -1 and arms a
body read of 2^64 - 1 bytes on an active connection. -/
theorem C8_witness :
    C8Concl exampleActiveState [255, 255, 255, 255, 255, 255, 255, 255] :=
  C8_no_header_validation exampleActiveState
    [255, 255, 255, 255, 255, 255, 255, 255] rfl (by decide)

/-- C9 counterexample: on a successful accept the completion handler
invokes the OnAccept hook first and arms the next accept afterwards,
so the re-arm does not happen before everything else. -/
theorem C9_counterexample :
    accept [()] 0 none = [SrvEffect.onAccept 0, SrvEffect.armAccept 0] ∧
    (accept [()] 0 none).head? ≠ some (SrvEffect.armAccept 0) := by
  decide

/-- C9 (amended): for every completion outcome on a valid acceptor
index — successful accept or accept error — the handler arms the next
accept on the same endpoint as its final step (after the OnAccept hook
on success, after logging on failure), so the endpoint keeps
accepting. -/
theorem C9_rearm_every_outcome {α : Type} (acceptors : List α) (i : Nat)
    (err : Option ErrorCode) (h : i < acceptors.length) :
    C9Concl acceptors i err := by
  have hg : getAcceptor acceptors i = some (acceptors.get ⟨i, h⟩) := by
    unfold getAcceptor
    split
    · omega
    · rfl
  constructor
  · unfold accept listen
    rw [hg]
    cases err <;> simp
  · unfold accept listen
    rw [hg]
    cases err <;> simp [List.getLast?_concat]

/-- C9 witness: the amended theorem on a two-endpoint listener, index
1, with a failed accept. -/
theorem C9_witness : C9Concl [(), ()] 1 (some ErrorCode.eof) :=
  C9_rearm_every_outcome [(), ()] 1 (some ErrorCode.eof) (by decide)

/-- C10: GetAcceptor returns null exactly when the index is not below
the number of held acceptors, and otherwise returns the acceptor at
that index; the bounds check precedes the vector access. -/
theorem C10_getAcceptor_bounds {α : Type} (l : List α) (i : Nat) :
    (getAcceptor l i = none ↔ l.length ≤ i) ∧
    (∀ h : i < l.length, getAcceptor l i = some (l.get ⟨i, h⟩)) := by
  constructor
  · unfold getAcceptor
    split
    · simp [*]
    · simp
      omega
  · intro h
    unfold getAcceptor
    split
    · omega
    · rfl

/-- C10 witness: in-range and out-of-range lookups on a concrete
acceptor list. -/
theorem C10_witness :
    getAcceptor [10, 20] 1 = some 20 ∧
    getAcceptor ([10, 20] : List Nat) 5 = none := by
  exact ⟨(C10_getAcceptor_bounds [10, 20] 1).2 (by decide),
         (C10_getAcceptor_bounds [10, 20] 5).1.mpr (by decide)⟩

/-- HandleDisconnect always leaves an inactive state with an empty
queue and an idle writer, and its armed operations are untouched. -/
theorem handleDisconnect_state (s : SocketState) :
    (handleDisconnect s).1.isActive = false ∧
    (handleDisconnect s).1.writeQueue = [] ∧
    (handleDisconnect s).1.isWriting = false ∧
    (handleDisconnect s).1.pendingW = s.pendingW := by
  unfold handleDisconnect
  cases hso : s.socketOpen <;> simp

/-- The effects of HandleDisconnect: the shutdown-close pair when the
transport is still open, then the unconditional OnDisconnect hook. -/
theorem handleDisconnect_effects (s : SocketState) :
    (handleDisconnect s).2
      = (if s.socketOpen then [Effect.shutdownClose] else [])
          ++ [Effect.onDisconnect] := by
  unfold handleDisconnect
  cases hso : s.socketOpen <;> simp

/-- C4: on a write completion of an active connection, any error
disconnects immediately with no retry (no write re-armed, hook fired);
a success pops exactly the head packet, then arms the next write when
one is queued and otherwise marks the writer idle. -/
theorem C4_write_completion (s : SocketState) (e : ErrorCode) (p : Packet)
    (rest : List Packet) (hA : s.isActive = true)
    (hQ : s.writeQueue = p :: rest) : C4Concl s e p rest := by
  have hfe : finishWrite s (some e)
      = handleDisconnect { s with pendingW := s.pendingW.tail } := by
    unfold finishWrite
    simp [hA]
  constructor
  · rw [hfe]
    refine ⟨(handleDisconnect_state _).1, (handleDisconnect_state _).2.1, ?_, ?_⟩
    · rw [handleDisconnect_effects]
      cases hso : s.socketOpen <;> simp
    · intro q
      rw [handleDisconnect_effects]
      cases hso : s.socketOpen <;> simp
  · cases rest with
    | nil =>
      refine ⟨?_, ?_, ?_, ?_⟩ <;>
        simp [finishWrite, hA, hQ]
    | cons q r2 =>
      refine ⟨?_, ?_, ?_, ?_⟩ <;>
        simp [finishWrite, handleWrite, hA, hQ]

/-- C4 witness: completion of the in-flight write of an active
connection holding packets [7] and [8]. -/
theorem C4_witness : C4Concl exampleWritingState ErrorCode.eof [7] [[8]] :=
  C4_write_completion exampleWritingState ErrorCode.eof [7] [[8]] rfl rfl

/-- C5: on a read completion of an active connection, a fatal error
disconnects (hook fired, no read re-armed), a transient error re-arms
the same read leaving the connection state alone, and a success
delivers the accumulated buffer to OnRead exactly once, consumes
exactly the transferred bytes and immediately arms the next read. -/
theorem C5_read_completion (s : SocketState) (e : ErrorCode)
    (bytes : List Nat) (hA : s.isActive = true) : C5Concl s e bytes := by
  refine ⟨?_, ?_, ?_⟩
  · intro hf
    have hfr : finishRead s (some e) bytes
        = handleDisconnect { s with pendingR := s.pendingR - 1,
                                    readBuffer := s.readBuffer ++ bytes } := by
      unfold finishRead
      simp [hA, hf]
    rw [hfr]
    refine ⟨(handleDisconnect_state _).1, ?_, ?_⟩
    · rw [handleDisconnect_effects]
      cases hso : s.socketOpen <;> simp
    · rw [handleDisconnect_effects]
      cases hso : s.socketOpen <;> simp
  · intro hf
    refine ⟨?_, ?_, ?_⟩ <;> simp [finishRead, handleRead, hA, hf]
  · refine ⟨?_, ?_, ?_⟩ <;> simp [finishRead, handleRead, hA]

/-- C5 witness: a fatal completion on a concrete active connection. -/
theorem C5_witness : C5Concl exampleActiveState ErrorCode.eof [4, 5] :=
  C5_read_completion exampleActiveState ErrorCode.eof [4, 5] rfl

/-- Propositional reading of the write-path invariant. -/
theorem winv_iff (s : SocketState) : winv s = true ↔
    (s.pendingW.length ≤ 1 ∧
     (s.isActive = true → s.isWriting = false → s.pendingW = []) ∧
     (s.isActive = true → headMatch s = true)) := by
  unfold winv
  cases hA : s.isActive <;> cases hW : s.isWriting <;>
    simp [List.isEmpty_iff, and_assoc]

/-- The write-path invariant only looks at the active flag, the writer
flag, the armed writes and the queue. -/
theorem winv_congr (s t : SocketState)
    (h1 : t.isActive = s.isActive) (h2 : t.isWriting = s.isWriting)
    (h3 : t.pendingW = s.pendingW) (h4 : t.writeQueue = s.writeQueue) :
    winv t = winv s := by
  unfold winv headMatch
  rw [h1, h2, h3, h4]

/-- Appending to the queue preserves the head-match test. -/
theorem headMatchL_append (pw q : List Packet) (p : Packet)
    (h : headMatchL pw q = true) : headMatchL pw (q ++ [p]) = true := by
  rcases pw with _ | ⟨x, _ | ⟨y, rest⟩⟩
  · rfl
  · unfold headMatchL at h ⊢
    rcases q with _ | ⟨a, as⟩
    · simp at h
    · simp at h
      simp [h]
  · rfl

/-- HandleWrite on an active connection with a non-empty queue arms a
write of the queue head. -/
theorem handleWrite_cons (s : SocketState) (a : Packet) (as : List Packet)
    (hA : s.isActive = true) (hq : s.writeQueue = a :: as) :
    handleWrite s
      = ({ s with pendingW := s.pendingW ++ [a] }, [Effect.armWrite a]) := by
  unfold handleWrite
  simp [hA, hq]

/-- EnqueueSend on an active connection with a busy writer only
appends to the queue. -/
theorem enqueueSend_busy (s : SocketState) (p : Packet)
    (hA : s.isActive = true) (hW : s.isWriting = true) :
    enqueueSend s p = ({ s with writeQueue := s.writeQueue ++ [p] }, []) := by
  unfold enqueueSend
  simp [hA, hW]

/-- EnqueueSend on an active connection with an idle writer appends to
the queue, raises the writer flag and arms a write of the head of the
resulting queue. -/
theorem enqueueSend_idle (s : SocketState) (p : Packet) (a : Packet)
    (as : List Packet) (hA : s.isActive = true) (hW : s.isWriting = false)
    (hq : s.writeQueue ++ [p] = a :: as) :
    enqueueSend s p
      = ({ s with writeQueue := s.writeQueue ++ [p], isWriting := true,
                  pendingW := s.pendingW ++ [a] }, [Effect.armWrite a]) := by
  have step1 : enqueueSend s p
      = handleWrite { s with writeQueue := s.writeQueue ++ [p],
                             isWriting := true } := by
    unfold enqueueSend
    simp [hA, hW]
  rw [step1,
      handleWrite_cons { s with writeQueue := s.writeQueue ++ [p],
                                isWriting := true } a as hA hq]

/-- EnqueueSend preserves the write-path invariant. -/
theorem winv_enqueueSend (s : SocketState) (p : Packet)
    (h : winv s = true) : winv (enqueueSend s p).1 = true := by
  obtain ⟨h1, h2, h3⟩ := (winv_iff s).1 h
  cases hA : s.isActive with
  | false =>
    have hres : (enqueueSend s p).1 = s := by
      simp [enqueueSend, hA]
    rw [hres]
    exact h
  | true =>
    cases hW : s.isWriting with
    | true =>
      rw [enqueueSend_busy s p hA hW, winv_iff]
      refine ⟨by simpa using h1, ?_, ?_⟩
      · intro _ h5
        simp [hW] at h5
      · intro _
        show headMatchL s.pendingW (s.writeQueue ++ [p]) = true
        exact headMatchL_append _ _ _ (h3 hA)
    | false =>
      have hp : s.pendingW = [] := h2 hA hW
      rcases hq0 : s.writeQueue ++ [p] with _ | ⟨a, as⟩
      · simp at hq0
      · rw [enqueueSend_idle s p a as hA hW hq0, winv_iff]
        refine ⟨?_, ?_, ?_⟩
        · simp [hp]
        · intro _ h5
          simp at h5
        · intro _
          show headMatchL (s.pendingW ++ [a]) (s.writeQueue ++ [p]) = true
          rw [hp, hq0]
          simp [headMatchL]

/-- HandleDisconnect preserves the write-path invariant. -/
theorem winv_handleDisconnect (s : SocketState)
    (h : winv s = true) : winv (handleDisconnect s).1 = true := by
  obtain ⟨h1, _, _⟩ := (winv_iff s).1 h
  rw [winv_iff]
  refine ⟨?_, ?_, ?_⟩
  · rw [(handleDisconnect_state s).2.2.2]
    exact h1
  · intro hA
    rw [(handleDisconnect_state s).1] at hA
    cases hA
  · intro hA
    rw [(handleDisconnect_state s).1] at hA
    cases hA

/-- A FinishWrite completion while the connection is inactive only
retires the outstanding write. -/
theorem finishWrite_inactive (s : SocketState) (err : Option ErrorCode)
    (hA : s.isActive = false) :
    finishWrite s err = ({ s with pendingW := s.pendingW.tail }, []) := by
  unfold finishWrite
  simp [hA]

/-- A FinishWrite completion with an error on an active connection
runs HandleDisconnect after retiring the outstanding write. -/
theorem finishWrite_err (s : SocketState) (e : ErrorCode)
    (hA : s.isActive = true) :
    finishWrite s (some e)
      = handleDisconnect { s with pendingW := s.pendingW.tail } := by
  unfold finishWrite
  simp [hA]

/-- A successful FinishWrite on an active connection whose queue holds
exactly one packet pops it and marks the writer idle. -/
theorem finishWrite_ok_last (s : SocketState) (p : Packet)
    (hA : s.isActive = true) (hq : s.writeQueue = [p]) :
    finishWrite s none
      = ({ s with
            pendingW := s.pendingW.tail, writeQueue := [],
            transmitted := s.transmitted ++ [p], isWriting := false }, []) := by
  unfold finishWrite
  simp [hA, hq]

/-- A successful FinishWrite on an active connection with further
queued packets pops the head and arms a write of the next packet. -/
theorem finishWrite_ok_more (s : SocketState) (p q : Packet)
    (rest : List Packet) (hA : s.isActive = true)
    (hq : s.writeQueue = p :: q :: rest) :
    finishWrite s none
      = ({ s with
            pendingW := s.pendingW.tail ++ [q],
            writeQueue := q :: rest,
            transmitted := s.transmitted ++ [p] }, [Effect.armWrite q]) := by
  unfold finishWrite handleWrite
  simp [hA, hq]

/-- FinishWrite preserves the write-path invariant whenever a write is
actually outstanding. -/
theorem winv_finishWrite (s : SocketState) (err : Option ErrorCode)
    (h : winv s = true) (hp : s.pendingW ≠ []) :
    winv (finishWrite s err).1 = true := by
  obtain ⟨h1, h2, h3⟩ := (winv_iff s).1 h
  have htail : s.pendingW.tail = [] := by
    rcases hpw : s.pendingW with _ | ⟨x, xs⟩
    · exact absurd hpw hp
    · rw [hpw] at h1
      simp at h1
      simp [h1]
  cases hA : s.isActive with
  | false =>
    rw [finishWrite_inactive s err hA, winv_iff]
    refine ⟨?_, ?_, ?_⟩
    · simp [htail]
    · intro h4
      simp [hA] at h4
    · intro h4
      simp [hA] at h4
  | true =>
    cases err with
    | some e =>
      rw [finishWrite_err s e hA]
      apply winv_handleDisconnect
      rw [winv_iff]
      refine ⟨?_, ?_, ?_⟩
      · simp [htail]
      · intro _ _
        show s.pendingW.tail = []
        exact htail
      · intro _
        show headMatchL s.pendingW.tail s.writeQueue = true
        rw [htail]
        rfl
    | none =>
      obtain ⟨q0, hq0⟩ : ∃ q0, s.pendingW = [q0] := by
        rcases hpw : s.pendingW with _ | ⟨x, _ | ⟨y, ys⟩⟩
        · exact absurd hpw hp
        · exact ⟨x, rfl⟩
        · rw [hpw] at h1
          simp at h1
      have hhm : s.writeQueue.head? = some q0 := by
        have := h3 hA
        unfold headMatch at this
        rw [hq0] at this
        unfold headMatchL at this
        simpa using this
      obtain ⟨rest, hrest⟩ : ∃ rest, s.writeQueue = q0 :: rest := by
        rcases hq : s.writeQueue with _ | ⟨a, as⟩
        · rw [hq] at hhm
          simp at hhm
        · rw [hq] at hhm
          simp at hhm
          exact ⟨as, by rw [hhm]⟩
      rcases hrest2 : rest with _ | ⟨b, bs⟩
      · rw [hrest2] at hrest
        rw [finishWrite_ok_last s q0 hA hrest, winv_iff]
        refine ⟨?_, ?_, ?_⟩
        · simp [htail]
        · intro _ _
          show s.pendingW.tail = []
          exact htail
        · intro _
          show headMatchL s.pendingW.tail [] = true
          rw [htail]
          rfl
      · rw [hrest2] at hrest
        rw [finishWrite_ok_more s q0 b bs hA hrest, winv_iff]
        refine ⟨?_, ?_, ?_⟩
        · simp [htail]
        · intro _ h5
          simp at h5
          have hcontr := h2 hA h5
          rw [hq0] at hcontr
          exact absurd hcontr (by simp)
        · intro _
          show headMatchL (s.pendingW.tail ++ [b]) (b :: bs) = true
          rw [htail]
          simp [headMatchL]

/-- FinishRead preserves the write-path invariant. -/
theorem winv_finishRead (s : SocketState) (err : Option ErrorCode)
    (b : List Nat) (h : winv s = true) :
    winv (finishRead s err b).1 = true := by
  cases hA : s.isActive with
  | false =>
    have heq : winv (finishRead s err b).1 = winv s := by
      apply winv_congr <;> simp [finishRead, hA]
    rw [heq]
    exact h
  | true =>
    cases err with
    | some e =>
      cases hf : isFatalError e with
      | true =>
        have hfr : finishRead s (some e) b
            = handleDisconnect { s with pendingR := s.pendingR - 1,
                                        readBuffer := s.readBuffer ++ b } := by
          unfold finishRead
          simp [hA, hf]
        rw [hfr]
        apply winv_handleDisconnect
        have heq : winv { s with pendingR := s.pendingR - 1,
                                 readBuffer := s.readBuffer ++ b } = winv s := by
          apply winv_congr <;> simp
        rw [heq]
        exact h
      | false =>
        have heq : winv (finishRead s (some e) b).1 = winv s := by
          apply winv_congr <;> simp [finishRead, handleRead, hA, hf]
        rw [heq]
        exact h
    | none =>
      have heq : winv (finishRead s none b).1 = winv s := by
        apply winv_congr <;> simp [finishRead, handleRead, hA]
      rw [heq]
      exact h

/-- The write-path invariant holds in every state reachable by a valid
setup-free trace from a state satisfying it. -/
theorem winv_run (s : SocketState) (t : List Op) (h : winv s = true)
    (hv : validFrom s t = true) (hns : noSetup t = true) :
    winv (run s t).1 = true := by
  induction t generalizing s with
  | nil => exact h
  | cons op t ih =>
    have hrun : (run s (op :: t)).1 = (run (stepOp s op).1 t).1 := rfl
    rw [hrun]
    have hv2 : validFrom (stepOp s op).1 t = true := by
      unfold validFrom at hv
      exact (Bool.and_eq_true _ _ ▸ hv).2
    have hns2 : noSetup t = true := by
      cases op <;> simp_all [noSetup]
    apply ih _ _ hv2 hns2
    cases op with
    | setup => simp [noSetup] at hns
    | enqueue p => exact winv_enqueueSend s p h
    | finishWrite e =>
      have hp : s.pendingW ≠ [] := by
        unfold validFrom at hv
        have := (Bool.and_eq_true _ _ ▸ hv).1
        simpa [List.isEmpty_iff] using this
      exact winv_finishWrite s e h hp
    | finishRead e b => exact winv_finishRead s e b h
    | disconnect => exact winv_handleDisconnect s h

/-- EnqueueSend on an active connection stays active, leaves the
transmitted packets alone and appends the packet to the queue. -/
theorem enqueueSend_order (s : SocketState) (p : Packet)
    (hA : s.isActive = true) :
    (enqueueSend s p).1.isActive = true ∧
    (enqueueSend s p).1.transmitted ++ (enqueueSend s p).1.writeQueue
      = s.transmitted ++ (s.writeQueue ++ [p]) := by
  cases hW : s.isWriting <;> cases hq : s.writeQueue <;>
    simp [enqueueSend, handleWrite, hA, hW, hq]

/-- A successful FinishWrite on an active connection stays active and
moves the head of the queue to the transmitted packets, preserving the
concatenation of transmitted and queued packets. -/
theorem finishWrite_ok_order (s : SocketState) (hA : s.isActive = true) :
    (finishWrite s none).1.isActive = true ∧
    (finishWrite s none).1.transmitted ++ (finishWrite s none).1.writeQueue
      = s.transmitted ++ s.writeQueue := by
  match hq : s.writeQueue with
  | [] => simp [finishWrite, hA, hq]
  | [p] => simp [finishWrite, hA, hq]
  | p :: q :: rest => simp [finishWrite, handleWrite, hA, hq]

/-- A non-disconnecting FinishRead on an active connection stays
active and does not touch the write path. -/
theorem finishRead_order (s : SocketState) (err : Option ErrorCode)
    (b : List Nat) (hA : s.isActive = true)
    (hok : ∀ e, err = some e → isFatalError e = false) :
    (finishRead s err b).1.isActive = true ∧
    (finishRead s err b).1.transmitted = s.transmitted ∧
    (finishRead s err b).1.writeQueue = s.writeQueue := by
  cases err with
  | none => simp [finishRead, handleRead, hA]
  | some e =>
    have hf := hok e rfl
    simp [finishRead, handleRead, hA, hf]

/-- Along a valid, setup-free, disconnect-free trace of an active
connection, the transmitted packets followed by the queued packets are
the initial ones followed by the packets enqueued by the trace, in
order, and the connection stays active. -/
theorem order_run (s : SocketState) (t : List Op)
    (hA : s.isActive = true) (hns : noSetup t = true)
    (hnd : noDisconnect t = true) :
    (run s t).1.isActive = true ∧
    (run s t).1.transmitted ++ (run s t).1.writeQueue
      = s.transmitted ++ s.writeQueue ++ enqueuedOf t := by
  induction t generalizing s with
  | nil => simp [run, hA, enqueuedOf]
  | cons op t ih =>
    have hrun : (run s (op :: t)).1 = (run (stepOp s op).1 t).1 := rfl
    have hns2 : noSetup t = true := by
      cases op <;> simp_all [noSetup]
    have hnd2 : noDisconnect t = true := by
      unfold noDisconnect at hnd
      exact (Bool.and_eq_true _ _ ▸ hnd).2
    cases op with
    | setup => simp [noSetup] at hns
    | disconnect => simp [noDisconnect] at hnd
    | enqueue p =>
      have hstep := enqueueSend_order s p hA
      have hih := ih (enqueueSend s p).1 hstep.1 hns2 hnd2
      rw [hrun]
      refine ⟨hih.1, ?_⟩
      show (run (enqueueSend s p).1 t).1.transmitted
            ++ (run (enqueueSend s p).1 t).1.writeQueue
          = s.transmitted ++ s.writeQueue ++ enqueuedOf (Op.enqueue p :: t)
      rw [hih.2, hstep.2]
      simp [enqueuedOf, List.append_assoc]
    | finishWrite e =>
      cases e with
      | some e2 => simp [noDisconnect] at hnd
      | none =>
        have hstep := finishWrite_ok_order s hA
        have hih := ih (finishWrite s none).1 hstep.1 hns2 hnd2
        rw [hrun]
        refine ⟨hih.1, ?_⟩
        show (run (finishWrite s none).1 t).1.transmitted
              ++ (run (finishWrite s none).1 t).1.writeQueue
            = s.transmitted ++ s.writeQueue ++ enqueuedOf (Op.finishWrite none :: t)
        rw [hih.2, hstep.2]
        simp [enqueuedOf]
    | finishRead e b =>
      have hok : ∀ e2, e = some e2 → isFatalError e2 = false := by
        intro e2 he
        subst he
        unfold noDisconnect at hnd
        have := (Bool.and_eq_true _ _ ▸ hnd).1
        simpa using this
      have hstep := finishRead_order s e b hA hok
      have hih := ih (finishRead s e b).1 hstep.1 hns2 hnd2
      rw [hrun]
      refine ⟨hih.1, ?_⟩
      show (run (finishRead s e b).1 t).1.transmitted
            ++ (run (finishRead s e b).1 t).1.writeQueue
          = s.transmitted ++ s.writeQueue ++ enqueuedOf (Op.finishRead e b :: t)
      rw [hih.2, hstep.2.1, hstep.2.2]
      simp [enqueuedOf]

/-- C1: for every valid setup-free execution of an active connection,
at most one write is in flight at any instant, the in-flight write is
always the head of the queue (so a successful FinishWrite pops exactly
the in-flight head), and over a disconnect-free execution the packets
transmitted to the peer followed by the still-queued ones equal the
enqueued packets P1..Pn in enqueue order; in particular when the queue
has drained, the peer has observed exactly P1..Pn concatenated in
enqueue order. -/
theorem C1_fifo_single_flight (t : List Op)
    (hv : validFrom initActive t = true) (hns : noSetup t = true) :
    C1Concl t := by
  have hw := winv_run initActive t (by decide) hv hns
  obtain ⟨h1, _, h3⟩ := (winv_iff _).1 hw
  refine ⟨h1, h3, ?_⟩
  intro hnd
  have ho := order_run initActive t rfl hns hnd
  have hb1 : initActive.transmitted = [] := rfl
  have hb2 : initActive.writeQueue = [] := rfl
  constructor
  · rw [ho.2, hb1, hb2]
    simp
  · intro hq
    have h := ho.2
    rw [hq, hb1, hb2] at h
    simpa using h

/-- C1 witness: the theorem on a concrete trace that enqueues two
packets, completes both writes and one read. -/
theorem C1_witness : C1Concl traceC1 :=
  C1_fifo_single_flight traceC1 (by decide) (by decide)

end DrowsyNetwork
